import Mathlib

/-!
# Verification of `fitness.py` (smiley): fitness tracking and member selection

Shallow embedding of the fitness/selection engine of `src/fitness.py`
(Python 2) into Lean 4, together with theorems settling the claims about it.

Conventions of the embedding:
* Python floats are modelled as rationals (`ℚ`); float arithmetic on the
  small literals involved here is exact, and the rounding in
  `round(x, 10)` is modelled explicitly.
* The objective / selection-type strings `'max'`, `'min'`, `'center'` are
  modelled by the inductive type `Objective`; the `isinstance`/membership
  validations on them are statically satisfied by typing.
* A fitness list entry `[value, member_no]` is a pair `ℚ × Nat`.
* Python `list.sort()` is stable lexicographic ascending sort; it is
  modelled by `List.insertionSort` with the lexicographic order (Mathlib's
  `insertionSort` is stable).  `list.sort(reverse=True)` is modelled by
  the flipped relation, which is also what CPython does (stable, with each
  comparison reversed).
* Fallible code (Python `raise`) is modelled with `Except PyError`.
-/

/-- The three fitness objectives `'max'`, `'min'`, `'center'`
(`FITNESS_TYPES` in the source). The same type doubles as the
selection type of `Selection` (restricted to `max`/`min` by the
`set_selection_type` validation). -/
inductive Objective
  | max
  | min
  | center
deriving DecidableEq, Repr

/-- Python exceptions raised by the code: `ValueError` (used by all the
configuration checks), `TypeError` (e.g. `float - None`), and
`ZeroDivisionError`. -/
inductive PyError
  | valueError
  | typeError
  | zeroDivision
deriving DecidableEq, Repr

/-- The `FitnessList` data: the subclassed Python list holds
`[value, member_no]` entries plus the `_fitness_type` and optional
`_target_value` attributes. -/
structure FitnessList where
  fitness_type : Objective
  target_value : Option ℚ
  entries : List (ℚ × ℕ)
deriving DecidableEq, Repr

/-- Lexicographic order on `[value, member_no]` pairs: how Python 2
compares the two-element lists held in a `FitnessList`. -/
def pairLe (a b : ℚ × ℕ) : Prop :=
  a.1 < b.1 ∨ (a.1 = b.1 ∧ a.2 ≤ b.2)

instance : DecidableRel pairLe := fun a b =>
  decidable_of_iff (a.1 < b.1 ∨ (a.1 = b.1 ∧ a.2 ≤ b.2)) Iff.rfl

instance : IsTotal (ℚ × ℕ) pairLe where
  total a b := by
    rcases lt_trichotomy a.1 b.1 with h | h | h
    · exact Or.inl (Or.inl h)
    · rcases Nat.le_total a.2 b.2 with h2 | h2
      · exact Or.inl (Or.inr ⟨h, h2⟩)
      · exact Or.inr (Or.inr ⟨h.symm, h2⟩)
    · exact Or.inr (Or.inl h)

instance : IsTrans (ℚ × ℕ) pairLe where
  trans a b c hab hbc := by
    rcases hab with h1 | ⟨e1, le1⟩
    · rcases hbc with h2 | ⟨e2, _⟩
      · exact Or.inl (h1.trans h2)
      · exact Or.inl (e2 ▸ h1)
    · rcases hbc with h2 | ⟨e2, le2⟩
      · exact Or.inl (e1 ▸ h2)
      · exact Or.inr ⟨e1.trans e2, le1.trans le2⟩

/-- Strict lexicographic order on pairs: the comparison `item < acc`
performed by Python's builtin `min`/`max` scans. -/
def pairLt (a b : ℚ × ℕ) : Prop :=
  a.1 < b.1 ∨ (a.1 = b.1 ∧ a.2 < b.2)

instance : DecidableRel pairLt := fun a b =>
  decidable_of_iff (a.1 < b.1 ∨ (a.1 = b.1 ∧ a.2 < b.2)) Iff.rfl

/-- Python `list.sort()` on `[value, member_no]` pairs: stable ascending
lexicographic sort. -/
def pySort (l : List (ℚ × ℕ)) : List (ℚ × ℕ) :=
  List.insertionSort pairLe l

/-- Python `list.sort(reverse=True)` on `[value, member_no]` pairs:
stable sort with every comparison reversed. -/
def pySortDesc (l : List (ℚ × ℕ)) : List (ℚ × ℕ) :=
  List.insertionSort (fun a b => pairLe b a) l

/-- `FitnessList.sorted`: for MIN sort the entries ascending, for MAX
descending; for CENTER build `[abs(value), member_no]` pairs — the
absolute value of the raw score, the stored target value is not
consulted — and sort those ascending. -/
def FitnessList.sorted (fl : FitnessList) : List (ℚ × ℕ) :=
  match fl.fitness_type with
  | .min => pySort fl.entries
  | .max => pySortDesc fl.entries
  | .center => pySort (fl.entries.map (fun e => (|e.1|, e.2)))

/-- `FitnessList.min_value`: Python `min(values)` where
`values = [value for value in self]` iterates over the *entries* — so it
is the lexicographic minimum of the `[value, member_no]` pairs, a whole
record, not a raw score.  `none` models the `ValueError` that `min` of an
empty sequence raises. -/
def FitnessList.min_value (fl : FitnessList) : Option (ℚ × ℕ) :=
  match fl.entries with
  | [] => none
  | x :: xs => some (xs.foldl (fun acc y => if pairLt y acc then y else acc) x)

/-- `FitnessList.max_value`: as `min_value`, but the lexicographic
maximum of the `[value, member_no]` pairs. -/
def FitnessList.max_value (fl : FitnessList) : Option (ℚ × ℕ) :=
  match fl.entries with
  | [] => none
  | x :: xs => some (xs.foldl (fun acc y => if pairLt acc y then y else acc) x)

/-- The CENTER branch of `FitnessList.best_value`:
`sortlist = self.sorted(); return sortlist[0][0]`.  (The MIN/MAX branches
delegate to `min_value()`/`max_value()`.) -/
def FitnessList.best_value_center (fl : FitnessList) : ℚ :=
  (fl.sorted.headD (0, 0)).1

/-- `FitnessList.median`, translated with Python 2 integer arithmetic:
`half = length / 2` is floor division, and the branch condition is
`half - length % 2 == 0` (signed), so the subtraction is over `ℤ`.
Index `half` is in range for every nonempty list; the `half - 1` index is
only consulted when the condition holds (lengths 0 and 3), and for
length 3 it equals 0, so `getD` with a default faithfully renders the
Python indexing for every nonempty list. -/
def FitnessList.median (fl : FitnessList) : ℚ :=
  let sort_list := fl.sorted
  let length : ℤ := (fl.entries.length : ℤ)
  let half : ℤ := length / 2
  if half - length % 2 = 0 then
    ((sort_list.getD (half - 1).toNat (0, 0)).1 +
      (sort_list.getD half.toNat (0, 0)).1) / 2
  else
    (sort_list.getD half.toNat (0, 0)).1

/-- A two-member MIN fitness list with scores 1.0 and 2.0. -/
def flMin2 : FitnessList :=
  { fitness_type := .min, target_value := none, entries := [(1, 0), (2, 1)] }

/-- A three-member MIN fitness list with scores 1.0, 2.0, 3.0. -/
def flMin3 : FitnessList :=
  { fitness_type := .min, target_value := none,
    entries := [(1, 0), (2, 1), (3, 2)] }

/-- A CENTER fitness list with target value 5.0 and raw scores 4.0 and
-1.0: member 0 is nearest the target (distance 1 versus 6), but it has
the larger absolute score (4 versus 1). -/
def flCenter : FitnessList :=
  { fitness_type := .center, target_value := some 5, entries := [(4, 0), (-1, 1)] }

/-- Raw score stored for member `m` in a fitness list (helper for stating
properties about member order). -/
def memberScore (fl : FitnessList) (m : ℕ) : ℚ :=
  ((fl.entries.filter (fun e => e.2 == m)).headD (0, 0)).1

/-- Python 2 `round(q)`: round to the nearest integer, halves away from
zero. -/
def pyRound (q : ℚ) : ℤ :=
  if 0 ≤ q then ⌊q + 1 / 2⌋ else -⌊-q + 1 / 2⌋

/-- Python 2 `round(q, 10)`: round to ten decimal places, halves away
from zero. -/
def pyRound10 (q : ℚ) : ℚ :=
  (pyRound (q * 10 ^ 10) : ℚ) / 10 ^ 10

/-- The validation at the head of `Selection._roulette_wheel`:
`if round(sum(scale_list), 10) != 1.0: raise ValueError(...)`.  The
random draws that follow the validation are not modelled; the check is
the subject of the claims about this function. -/
def Selection.roulette_wheel_check (scale_list : List ℚ) : Except PyError Unit :=
  if pyRound10 scale_list.sum ≠ 1 then Except.error PyError.valueError
  else Except.ok ()

/-- `Selection._make_sort_list`: pairs `[self._selection_list[i], i]`
for `i` in `range(length)`. -/
def Selection.make_sort_list (sl : List ℚ) : List (ℚ × ℕ) :=
  (List.range sl.length).map (fun i => (sl.getD i 0, i))

/-- The loop of `Fitness.set_fitness_list` for a CENTER fitness list:
each nonzero score becomes `abs(score - target)`; a zero score becomes
`0.0` without consulting the target.  When the target was never set,
Python evaluates `score - None`, a `TypeError`, at the first nonzero
score. -/
def Fitness.center_list (target : Option ℚ) : List (ℚ × ℕ) → Except PyError (List ℚ)
  | [] => Except.ok []
  | e :: rest =>
    if e.1 ≠ 0 then
      match target with
      | some t => (Fitness.center_list target rest).map (fun l => |e.1 - t| :: l)
      | none => Except.error PyError.typeError
    else
      (Fitness.center_list target rest).map (fun l => (0 : ℚ) :: l)

/-- `Fitness.set_fitness_list`: builds `self._selection_list` from a
fitness list — target distances for CENTER, raw scores otherwise.  (The
`isinstance(fitness_list, FitnessList)` guard is statically satisfied by
typing.) -/
def Fitness.set_fitness_list (fl : FitnessList) : Except PyError (List ℚ) :=
  match fl.fitness_type with
  | .center => Fitness.center_list fl.target_value fl.entries
  | _ => Except.ok (fl.entries.map (fun e => e.1))

/-- `FitnessList.__init__`: stores the fitness type and the optional
target value.  The `set_fitness_type` membership check and the
`set_target_value` float check are statically satisfied by typing, so
construction never fails — in particular a CENTER list with no target
value is accepted. -/
def FitnessList.init (fitness_type : Objective) (target_value : Option ℚ) :
    Except PyError FitnessList :=
  Except.ok { fitness_type := fitness_type, target_value := target_value, entries := [] }

/-- `Fitness._invert`: the reciprocal, with `0.0` mapped to `0.0`. -/
def Fitness.invert (value : ℚ) : ℚ :=
  if value = 0 then 0 else 1 / value

/-- `Fitness._scale_list`: replaces every entry of the working vector by
its reciprocal exactly when the requested selection type conflicts with
the stored objective — the `if`/`elif` chain of the source sets
`inverse` for (MAX, MIN), (MIN, MAX) and (MAX, CENTER). -/
def Fitness.scale_list (selection_type fitness_type : Objective) (sl : List ℚ) :
    List ℚ :=
  let inverse :=
    if selection_type = Objective.max ∧ fitness_type = Objective.min then true
    else if selection_type = Objective.min ∧ fitness_type = Objective.max then true
    else if selection_type = Objective.max ∧ fitness_type = Objective.center then true
    else false
  if inverse then sl.map Fitness.invert else sl

/-- `Fitness._make_prob_list`: scales the working vector for direction,
then divides every entry by the total — unless the total is exactly
`0.0`, in which case the vector is left as scaled. -/
def Fitness.make_prob_list (selection_type fitness_type : Objective) (sl : List ℚ) :
    List ℚ :=
  let scaled := Fitness.scale_list selection_type fitness_type sl
  let total := scaled.sum
  if total ≠ 0 then scaled.map (fun value => value / total) else scaled

/-- Lexicographic order on `[member_no, probability]` pairs: how Python 2
compares the two-element lists built by `FitnessLinearRanking.select`
and `FitnessTruncationRanking.select` before their final `sort()`. -/
def pairLeNQ (a b : ℕ × ℚ) : Prop :=
  a.1 < b.1 ∨ (a.1 = b.1 ∧ a.2 ≤ b.2)

instance : DecidableRel pairLeNQ := fun a b =>
  decidable_of_iff (a.1 < b.1 ∨ (a.1 = b.1 ∧ a.2 ≤ b.2)) Iff.rfl

instance : IsTotal (ℕ × ℚ) pairLeNQ where
  total a b := by
    rcases Nat.lt_trichotomy a.1 b.1 with h | h | h
    · exact Or.inl (Or.inl h)
    · rcases le_total a.2 b.2 with h2 | h2
      · exact Or.inl (Or.inr ⟨h, h2⟩)
      · exact Or.inr (Or.inr ⟨h.symm, h2⟩)
    · exact Or.inr (Or.inl h)

instance : IsTrans (ℕ × ℚ) pairLeNQ where
  trans a b c hab hbc := by
    rcases hab with h1 | ⟨e1, le1⟩
    · rcases hbc with h2 | ⟨e2, _⟩
      · exact Or.inl (h1.trans h2)
      · exact Or.inl (e2 ▸ h1)
    · rcases hbc with h2 | ⟨e2, le2⟩
      · exact Or.inl (e1 ▸ h2)
      · exact Or.inr ⟨e1.trans e2, le1.trans le2⟩

/-- Python `list.sort()` on `[member_no, probability]` pairs. -/
def pySortNQ (l : List (ℕ × ℚ)) : List (ℕ × ℚ) :=
  List.insertionSort pairLeNQ l

/-- `FitnessLinearRanking._linear_ranking`: the probability-curve loop,
`value = 1/length * (worstfactor + (bestfactor - worstfactor) * (i - 1) /
(length - 1))` for `i = 1 .. length`.  (For a one-member list Python
raises `ZeroDivisionError` on the float division by `length - 1.0`;
rational division by zero yields `0` here, and every claim about this
strategy assumes at least two members.) -/
def FitnessLinearRanking.linear_ranking (worstfactor bestfactor : ℚ) (n : ℕ) :
    List ℚ :=
  (List.range n).map (fun (k : ℕ) =>
    1 / (n : ℚ) * (worstfactor + (bestfactor - worstfactor) * (k : ℚ) / ((n : ℚ) - 1)))

/-- `FitnessLinearRanking.select`, up to the probability vector handed to
`_roulette_wheel`: scales the working vector, builds the (unsorted)
`[value, i]` sort list, assigns the rank-curve probabilities positionally
against it, rebuilds `[member_no, prob]` pairs, sorts them by member
number, and extracts the probabilities. -/
def FitnessLinearRanking.select_probs (selection_type fitness_type : Objective)
    (worstfactor bestfactor : ℚ) (sl : List ℚ) : List ℚ :=
  let scaled := Fitness.scale_list selection_type fitness_type sl
  let sort_list := Selection.make_sort_list scaled
  let prob_list :=
    FitnessLinearRanking.linear_ranking worstfactor bestfactor sort_list.length
  let select_list := (List.range sort_list.length).map
    (fun i => ((sort_list.getD i (0, 0)).2, prob_list.getD i 0))
  (pySortNQ select_list).map (fun p => p.2)

/-- The rank-probability assignment as the claim states it: ranks are
taken along the scaled working vector's ascending sorted order (rank 1 is
the entry with the smallest scaled value, receiving the worst factor),
the rank probabilities are carried by the sorted entries' member numbers,
and the pairs are mapped back to member-number order.  This definition
follows the specification text; it differs from the source only in
sorting the sort list before assigning rank probabilities. -/
def lr_rank_probs_claim (selection_type fitness_type : Objective)
    (worstfactor bestfactor : ℚ) (sl : List ℚ) : List ℚ :=
  let scaled := Fitness.scale_list selection_type fitness_type sl
  let sort_list := pySort (Selection.make_sort_list scaled)
  let prob_list :=
    FitnessLinearRanking.linear_ranking worstfactor bestfactor sort_list.length
  let select_list := (List.range sort_list.length).map
    (fun i => ((sort_list.getD i (0, 0)).2, prob_list.getD i 0))
  (pySortNQ select_list).map (fun p => p.2)

/-- `FitnessTruncationRanking.select`, up to the probability vector
handed to `_roulette_wheel`: scales the working vector, sorts the
`[value, member_no]` pairs descending, computes
`cutoff_rank = int(round(trunc_rate * length))`, assigns
`1.0 / float(length - cutoff_rank)` to the first `cutoff_rank` positions
(a `ZeroDivisionError` when `cutoff_rank` equals the population size) and
`0.0` to the rest, restores member order, and normalizes (the
normalization `item / total` is a `ZeroDivisionError` when the assigned
probabilities total `0.0` and the list is nonempty). -/
def FitnessTruncationRanking.select_probs (selection_type fitness_type : Objective)
    (trunc_rate : ℚ) (sl : List ℚ) : Except PyError (List ℚ) :=
  let scaled := Fitness.scale_list selection_type fitness_type sl
  let sort_list := pySortDesc (Selection.make_sort_list scaled)
  let length := sort_list.length
  let cutoff_rank : ℤ := pyRound (trunc_rate * (length : ℚ))
  if (length : ℤ) = cutoff_rank ∧ 1 ≤ length then Except.error PyError.zeroDivision
  else
    let prob_list := (List.range length).map (fun i =>
      ((sort_list.getD i (0, 0)).2,
        if (i : ℤ) < cutoff_rank then 1 / ((length : ℚ) - (cutoff_rank : ℚ)) else 0))
    let select_list := (pySortNQ prob_list).map (fun p => p.2)
    let total := select_list.sum
    if total = 0 ∧ select_list ≠ [] then Except.error PyError.zeroDivision
    else Except.ok (select_list.map (fun value => value / total))

/-- `ReplacementDeleteWorst.set_replacement_count`: with
`replacement_count` an integer, the `isinstance` guard holds, so the
code raises exactly when `0.0 < replacement_count <= 1.0` — rejecting
the count `1` and accepting every other integer, including `0`, negative
counts, and counts larger than the population. -/
def ReplacementDeleteWorst.set_replacement_count (replacement_count : ℤ) :
    Except PyError ℤ :=
  if 0 < replacement_count ∧ replacement_count ≤ 1 then
    Except.error PyError.valueError
  else Except.ok replacement_count

/-- C3: `median()` does not compute the median.  The parity test
`half - length % 2 == 0` holds only for lengths 0 and 3, so for the
even-length list `[1.0, 2.0]` the code returns the upper central entry
`2.0` instead of the average `1.5` of the two central entries, and for
the odd-length list `[1.0, 2.0, 3.0]` it returns the average `1.5` of the
first two entries instead of the middle entry `2.0`. -/
theorem median_code_bug :
    flMin2.median = 2 ∧ flMin3.median = 3 / 2 := by
  refine ⟨by rfl, ?_⟩
  norm_num [FitnessList.median, FitnessList.sorted, flMin3, pySort,
    List.insertionSort, List.orderedInsert, pairLe]

/-- C4: `min_value()`/`max_value()` iterate over the `FitnessList`
entries themselves, so they return a lexicographic extremum of the
`[value, member_no]` records — a record, not a raw score.  On the MIN
list with entries `[1.0, 0]` and `[2.0, 1]`, `min_value()` is the record
`[1.0, 0]` and `max_value()` the record `[2.0, 1]`, not the scores `1.0`
and `2.0`. -/
theorem min_max_value_code_bug :
    flMin2.min_value = some (1, 0) ∧ flMin2.max_value = some (2, 1) := by
  constructor <;> rfl

/-- A one-member CENTER fitness list with a nonzero score and no target
value set. -/
def flCenterNoTarget : FitnessList :=
  { fitness_type := .center, target_value := none, entries := [(1, 0)] }

/-! ### Helper lemmas -/

theorem pairLe_fst_le {a b : ℚ × ℕ} (h : pairLe a b) : a.1 ≤ b.1 := by
  rcases h with h | ⟨h, _⟩
  · exact le_of_lt h
  · exact le_of_eq h

theorem list_sum_map_div (l : List ℚ) (t : ℚ) :
    (l.map (fun v => v / t)).sum = l.sum / t := by
  induction l with
  | nil => simp
  | cons x xs ih => simp [ih, add_div]

theorem scale_list_length (st ft : Objective) (sl : List ℚ) :
    (Fitness.scale_list st ft sl).length = sl.length := by
  cases st <;> cases ft <;> simp [Fitness.scale_list]

theorem make_sort_list_length (sl : List ℚ) :
    (Selection.make_sort_list sl).length = sl.length := by
  simp [Selection.make_sort_list]

theorem pySort_length (l : List (ℚ × ℕ)) : (pySort l).length = l.length :=
  (List.perm_insertionSort pairLe l).length_eq

theorem pySortDesc_length (l : List (ℚ × ℕ)) : (pySortDesc l).length = l.length :=
  (List.perm_insertionSort (fun a b => pairLe b a) l).length_eq

theorem pySortNQ_length (l : List (ℕ × ℚ)) : (pySortNQ l).length = l.length :=
  (List.perm_insertionSort pairLeNQ l).length_eq

theorem getD_range_map {α : Type} (f : ℕ → α) (n i : ℕ) (hi : i < n) (d : α) :
    ((List.range n).map f).getD i d = f i := by
  rw [List.getD_eq_getElem ((List.range n).map f) d (by simpa using hi)]
  simp

theorem center_list_none_error (l : List (ℚ × ℕ)) (h : ∃ e ∈ l, e.1 ≠ 0) :
    Fitness.center_list none l = Except.error PyError.typeError := by
  induction l with
  | nil => simp at h
  | cons x xs ih =>
    by_cases hx : x.1 ≠ 0
    · simp [Fitness.center_list, hx]
    · obtain ⟨e, he, hne⟩ := h
      rcases List.mem_cons.mp he with rfl | he
      · exact absurd hne (by simpa using hx)
      · simp [Fitness.center_list, hx, ih ⟨e, he, hne⟩, Except.map]

/-! ### Claim theorems -/

/-- C6: `_make_prob_list` first applies `_scale_list`; when the scaled
working vector totals exactly `0.0` the vector is left as scaled without
raising, and otherwise every entry is divided by the total, producing a
vector that sums to `1` exactly. -/
theorem make_prob_list_normalizes (st ft : Objective) (sl : List ℚ) :
    ((Fitness.scale_list st ft sl).sum = 0 →
      Fitness.make_prob_list st ft sl = Fitness.scale_list st ft sl) ∧
    ((Fitness.scale_list st ft sl).sum ≠ 0 →
      (Fitness.make_prob_list st ft sl).sum = 1) := by
  constructor
  · intro h
    simp [Fitness.make_prob_list, h]
  · intro h
    simp only [Fitness.make_prob_list, if_pos h, list_sum_map_div]
    exact div_self h

/-- Witness for C6: over the MAX/MAX working vector `[1, 3]` the scaled
total is `4 ≠ 0` and the probability vector sums to `1`; over `[0]` the
total is `0` and the vector is returned as scaled. -/
theorem make_prob_list_normalizes_witness :
    ((Fitness.scale_list .max .max [1, 3]).sum ≠ 0 ∧
      (Fitness.make_prob_list .max .max [1, 3]).sum = 1) ∧
    ((Fitness.scale_list .max .max [0]).sum = 0 ∧
      Fitness.make_prob_list .max .max [0] = Fitness.scale_list .max .max [0]) :=
  ⟨⟨by rw [show Fitness.scale_list .max .max [1, 3] = [1, 3] from rfl]; norm_num,
      (make_prob_list_normalizes .max .max [1, 3]).2
        (by rw [show Fitness.scale_list .max .max [1, 3] = [1, 3] from rfl]; norm_num)⟩,
    ⟨by rw [show Fitness.scale_list .max .max [0] = [0] from rfl]; norm_num,
      (make_prob_list_normalizes .max .max [0]).1
        (by rw [show Fitness.scale_list .max .max [0] = [0] from rfl]; norm_num)⟩⟩

/-- C7: `_scale_list` replaces every working-vector entry by its
reciprocal (with `0` mapped to `0`) exactly when the selection type and
the stored objective form one of the pairs (MAX, MIN), (MIN, MAX),
(MAX, CENTER), and leaves the vector unchanged for every other
combination. -/
theorem scale_list_inversion (st ft : Objective) (sl : List ℚ) :
    ((st = Objective.max ∧ ft = Objective.min) ∨
        (st = Objective.min ∧ ft = Objective.max) ∨
        (st = Objective.max ∧ ft = Objective.center) →
      Fitness.scale_list st ft sl = sl.map (fun v => if v = 0 then 0 else 1 / v)) ∧
    (¬((st = Objective.max ∧ ft = Objective.min) ∨
        (st = Objective.min ∧ ft = Objective.max) ∨
        (st = Objective.max ∧ ft = Objective.center)) →
      Fitness.scale_list st ft sl = sl) := by
  cases st <;> cases ft <;>
    refine ⟨fun h => ?_, fun h => ?_⟩ <;>
    simp_all [Fitness.scale_list, Fitness.invert]

/-- Witness for C7: the conflicting pair (MAX, MIN) inverts `[2, 0]`
entrywise to `[1/2, 0]`, while the matching pair (MIN, MIN) leaves
`[2, 0]` unchanged. -/
theorem scale_list_inversion_witness :
    Fitness.scale_list .max .min [2, 0] = [1 / 2, 0] ∧
    Fitness.scale_list .min .min [2, 0] = [2, 0] := by
  constructor
  · rw [(scale_list_inversion .max .min [2, 0]).1 (by decide)]
    norm_num
  · exact (scale_list_inversion .min .min [2, 0]).2 (by decide)

/-- C8: `set_replacement_count` with an integer count raises exactly
when the count lies in `(0, 1]`: the legitimate count `1` is rejected
with a `ValueError`, while `2`, `0` and the out-of-range `100` are all
accepted (there is no check against the population size). -/
theorem replacement_count_code_bug :
    ReplacementDeleteWorst.set_replacement_count 1 = Except.error PyError.valueError ∧
    ReplacementDeleteWorst.set_replacement_count 2 = Except.ok 2 ∧
    ReplacementDeleteWorst.set_replacement_count 0 = Except.ok 0 ∧
    ReplacementDeleteWorst.set_replacement_count 100 = Except.ok 100 := by
  refine ⟨?_, ?_, ?_, ?_⟩ <;> rfl

/-- C10: a `FitnessList` with objective CENTER and no target value is
constructed without complaint, but building any `Fitness`-based
strategy's selection list over it hits `score - None` — a `TypeError` —
as soon as some raw score is nonzero. -/
theorem center_without_target_type_error (fl : FitnessList)
    (hft : fl.fitness_type = Objective.center)
    (htv : fl.target_value = none)
    (hnz : ∃ e ∈ fl.entries, e.1 ≠ 0) :
    Fitness.set_fitness_list fl = Except.error PyError.typeError ∧
    FitnessList.init fl.fitness_type fl.target_value =
      Except.ok { fitness_type := fl.fitness_type,
                  target_value := fl.target_value, entries := [] } := by
  refine ⟨?_, rfl⟩
  simp only [Fitness.set_fitness_list, hft, htv]
  exact center_list_none_error fl.entries hnz

/-- Witness for C10 at the CENTER list with entries `[(1, 0)]` and no
target value. -/
theorem center_without_target_witness :
    (∃ e ∈ flCenterNoTarget.entries, e.1 ≠ 0) ∧
    Fitness.set_fitness_list flCenterNoTarget = Except.error PyError.typeError :=
  ⟨⟨(1, 0), by simp [flCenterNoTarget], by norm_num⟩,
    (center_without_target_type_error flCenterNoTarget rfl rfl
      ⟨(1, 0), by simp [flCenterNoTarget], by norm_num⟩).1⟩

theorem pySortNQ_eq_self {l : List (ℕ × ℚ)} (h : List.Sorted pairLeNQ l) :
    pySortNQ l = l :=
  h.insertionSort_eq

theorem sorted_range_map_fst (g : ℕ → ℚ) (n : ℕ) :
    List.Sorted pairLeNQ ((List.range n).map (fun i => (i, g i))) := by
  rw [List.Sorted, List.pairwise_map]
  exact (List.pairwise_lt_range n).imp (fun h => Or.inl h)

theorem make_sort_list_getD (sl : List ℚ) (i : ℕ) (hi : i < sl.length) :
    (Selection.make_sort_list sl).getD i (0, 0) = (sl.getD i 0, i) := by
  unfold Selection.make_sort_list
  exact getD_range_map _ _ _ hi _

theorem linear_ranking_getD (w b : ℚ) (n i : ℕ) (hi : i < n) :
    (FitnessLinearRanking.linear_ranking w b n).getD i 0 =
      1 / (n : ℚ) * (w + (b - w) * (i : ℚ) / ((n : ℚ) - 1)) := by
  unfold FitnessLinearRanking.linear_ranking
  exact getD_range_map _ _ _ hi _

/-- C1 (amended): for every CENTER fitness list, `sorted()` returns the
(key, member-id) pairs ordered ascending by the key `|score|` — the
absolute value of the raw score, with the stored target value ignored —
and is a permutation of the `|score|`-keyed entries; consequently
`best_value()` for CENTER is the smallest absolute raw score of the
population. -/
theorem sorted_center_abs_score (fl : FitnessList)
    (hft : fl.fitness_type = Objective.center) :
    List.Sorted pairLe fl.sorted ∧
    fl.sorted.Perm (fl.entries.map (fun e => (|e.1|, e.2))) ∧
    (fl.entries ≠ [] →
      (∃ e ∈ fl.entries, fl.best_value_center = |e.1|) ∧
      ∀ e ∈ fl.entries, fl.best_value_center ≤ |e.1|) := by
  obtain ⟨ft, tv, entries⟩ := fl
  have hft2 : ft = Objective.center := hft
  subst hft2
  have hs : FitnessList.sorted ⟨Objective.center, tv, entries⟩ =
      pySort (entries.map (fun e => (|e.1|, e.2))) := rfl
  have hperm : (pySort (entries.map (fun e => (|e.1|, e.2)))).Perm
      (entries.map (fun e => (|e.1|, e.2))) :=
    List.perm_insertionSort pairLe _
  have hsorted : List.Sorted pairLe (pySort (entries.map (fun e => (|e.1|, e.2)))) :=
    List.sorted_insertionSort pairLe _
  refine ⟨by rw [hs]; exact hsorted, by rw [hs]; exact hperm, fun hne => ?_⟩
  have hs_ne : pySort (entries.map (fun e => (|e.1|, e.2))) ≠ [] := by
    intro h0
    have := hperm.length_eq
    rw [h0] at this
    simp at this
    exact hne (List.eq_nil_of_length_eq_zero this.symm ▸ rfl)
  obtain ⟨p, rest, hcons⟩ := List.exists_cons_of_ne_nil hs_ne
  have hbv : FitnessList.best_value_center ⟨Objective.center, tv, entries⟩ = p.1 := by
    unfold FitnessList.best_value_center
    rw [hs, hcons]
    rfl
  constructor
  · have hp_mem : p ∈ entries.map (fun e => (|e.1|, e.2)) :=
      hperm.subset (hcons ▸ List.mem_cons_self p rest)
    obtain ⟨e, he, hfe⟩ := List.mem_map.mp hp_mem
    exact ⟨e, he, by rw [hbv, ← hfe]⟩
  · intro e he
    have hmem : (|e.1|, e.2) ∈ pySort (entries.map (fun e => (|e.1|, e.2))) :=
      hperm.symm.subset (List.mem_map_of_mem _ he)
    rw [hcons] at hmem
    rcases List.mem_cons.mp hmem with heq | hmem2
    · rw [hbv, ← heq]
    · rw [hbv]
      exact pairLe_fst_le (List.rel_of_sorted_cons (hcons ▸ hsorted) _ hmem2)

/-- Witness for C1 at the CENTER list `flCenter`. -/
theorem sorted_center_abs_score_witness :
    List.Sorted pairLe flCenter.sorted ∧
    flCenter.sorted.Perm (flCenter.entries.map (fun e => (|e.1|, e.2))) ∧
    ((∃ e ∈ flCenter.entries, flCenter.best_value_center = |e.1|) ∧
      ∀ e ∈ flCenter.entries, flCenter.best_value_center ≤ |e.1|) :=
  ⟨(sorted_center_abs_score flCenter rfl).1,
    (sorted_center_abs_score flCenter rfl).2.1,
    (sorted_center_abs_score flCenter rfl).2.2 (by simp [flCenter])⟩

/-- C1 counterexample: for the CENTER list with target value `5` and
entries `[4.0, 0]`, `[-1.0, 1]`, `sorted()` places member 1 first (its
key is `|-1| = 1`), yet member 1 is the member *farther* from the
target (`|-1 - 5| = 6` against `|4 - 5| = 1`): the returned pairs are
not ordered ascending by absolute distance from the target. -/
theorem sorted_center_counterexample :
    flCenter.sorted = [(1, 1), (4, 0)] ∧
    ¬ List.Sorted (fun a b => a ≤ b)
        (flCenter.sorted.map
          (fun p => |memberScore flCenter p.2 - flCenter.target_value.getD 0|)) := by
  have h1 : flCenter.sorted = [(1, 1), (4, 0)] := by decide
  refine ⟨h1, ?_⟩
  rw [h1]
  intro hsort
  have h6 : |memberScore flCenter 1 - flCenter.target_value.getD 0| ≤
      |memberScore flCenter 0 - flCenter.target_value.getD 0| := by
    have := List.rel_of_sorted_cons hsort
    simpa using this _ (by simp)
  rw [show memberScore flCenter 1 = -1 from rfl,
    show memberScore flCenter 0 = 4 from rfl,
    show flCenter.target_value.getD 0 = 5 from rfl] at h6
  norm_num at h6

/-- C2 (amended): in `FitnessLinearRanking.select()`, after scaling, the
rank-curve probability for rank `i + 1` is assigned to the member at
*position* `i` of the working vector — the member with member number
`i` — regardless of the scaled values: the sort list is built but never
sorted before the probabilities are assigned, so the probability follows
original member order, not fitness order, and `population_size` picks
are then drawn from this vector via the roulette wheel. -/
theorem linear_ranking_position_probs (st ft : Objective)
    (worstfactor bestfactor : ℚ) (sl : List ℚ)
    (_hN : 2 ≤ sl.length) (i : ℕ) (hi : i < sl.length) :
    (FitnessLinearRanking.select_probs st ft worstfactor bestfactor sl).getD i 0 =
      1 / (sl.length : ℚ) *
        (worstfactor + (bestfactor - worstfactor) * (i : ℚ) /
          ((sl.length : ℚ) - 1)) := by
  have h1 : (Selection.make_sort_list (Fitness.scale_list st ft sl)).length
      = sl.length := by
    rw [make_sort_list_length, scale_list_length]
  have h2 : (List.range
        (Selection.make_sort_list (Fitness.scale_list st ft sl)).length).map
        (fun j => (((Selection.make_sort_list (Fitness.scale_list st ft sl)).getD
            j (0, 0)).2,
          (FitnessLinearRanking.linear_ranking worstfactor bestfactor
            (Selection.make_sort_list (Fitness.scale_list st ft sl)).length).getD
            j 0)) =
      (List.range sl.length).map
        (fun j => (j, (FitnessLinearRanking.linear_ranking worstfactor bestfactor
          sl.length).getD j 0)) := by
    rw [h1]
    refine List.map_congr_left (fun j hj => ?_)
    rw [make_sort_list_getD _ _ (by rw [scale_list_length]; exact List.mem_range.mp hj)]
  simp only [FitnessLinearRanking.select_probs]
  rw [h2, pySortNQ_eq_self (sorted_range_map_fst _ _), List.map_map]
  rw [show ((fun p : ℕ × ℚ => p.2) ∘ fun j =>
      (j, (FitnessLinearRanking.linear_ranking worstfactor bestfactor
        sl.length).getD j 0)) =
    fun j => (FitnessLinearRanking.linear_ranking worstfactor bestfactor
      sl.length).getD j 0 from rfl]
  rw [getD_range_map _ _ _ hi, linear_ranking_getD _ _ _ _ hi]

/-- Witness for C2 over the MAX/MAX working vector `[10, 1]` with
worst factor `1/2` and best factor `3/2`: position 0 receives the rank-1
(worst) probability `1/4` although it holds the best score. -/
theorem linear_ranking_position_probs_witness :
    2 ≤ ([(10 : ℚ), 1]).length ∧ 0 < ([(10 : ℚ), 1]).length ∧
    (FitnessLinearRanking.select_probs .max .max (1 / 2) (3 / 2) [10, 1]).getD 0 0 =
      1 / (([(10 : ℚ), 1]).length : ℚ) *
        (1 / 2 + (3 / 2 - 1 / 2) * ((0 : ℕ) : ℚ) /
          ((([(10 : ℚ), 1]).length : ℚ) - 1)) :=
  ⟨by decide, by decide,
    linear_ranking_position_probs .max .max (1 / 2) (3 / 2) [10, 1]
      (by decide) 0 (by decide)⟩

/-- C2 counterexample: with objective MAX, scores `[10, 1]` at members
`[0, 1]`, worst factor `1/2` and best factor `3/2`, the code hands the
roulette wheel `[1/4, 3/4]` — member 0, holding fitness rank 2 (the best
scaled value), receives the rank-1 probability `1/4`, while the
claim's rank-ordered assignment yields `[3/4, 1/4]`. -/
theorem linear_ranking_counterexample :
    FitnessLinearRanking.select_probs .max .max (1 / 2) (3 / 2) [10, 1] =
      [1 / 4, 3 / 4] ∧
    lr_rank_probs_claim .max .max (1 / 2) (3 / 2) [10, 1] = [3 / 4, 1 / 4] := by
  have h1 : FitnessLinearRanking.select_probs .max .max (1 / 2) (3 / 2) [10, 1] =
      [1 / ((2 : ℕ) : ℚ) * (1 / 2 + (3 / 2 - 1 / 2) * ((0 : ℕ) : ℚ) /
          (((2 : ℕ) : ℚ) - 1)),
        1 / ((2 : ℕ) : ℚ) * (1 / 2 + (3 / 2 - 1 / 2) * ((1 : ℕ) : ℚ) /
          (((2 : ℕ) : ℚ) - 1))] := rfl
  have h2 : lr_rank_probs_claim .max .max (1 / 2) (3 / 2) [10, 1] =
      [1 / ((2 : ℕ) : ℚ) * (1 / 2 + (3 / 2 - 1 / 2) * ((1 : ℕ) : ℚ) /
          (((2 : ℕ) : ℚ) - 1)),
        1 / ((2 : ℕ) : ℚ) * (1 / 2 + (3 / 2 - 1 / 2) * ((0 : ℕ) : ℚ) /
          (((2 : ℕ) : ℚ) - 1))] := rfl
  rw [h1, h2]
  norm_num

theorem pyRound_eq_iff (x : ℚ) (n : ℤ) (hx : 0 ≤ x) :
    pyRound x = n ↔ (n : ℚ) ≤ x + 1 / 2 ∧ x + 1 / 2 < n + 1 := by
  unfold pyRound
  rw [if_pos hx, Int.floor_eq_iff]


/-- C5 (amended): the roulette-wheel validation checks
`round(sum, 10) == 1.0`, so for a non-negative weight vector it accepts
exactly when the sum lies within *half* of `10⁻¹⁰` of `1.0` (more
precisely `1 - 0.5e-10 ≤ sum < 1 + 0.5e-10`, halves rounding away from
zero); a vector summing to `0.9999999999` is rejected, but so are
vectors whose sums differ from `1.0` by no more than `1e-10`. -/
theorem roulette_wheel_tolerance (sl : List ℚ) (h : 0 ≤ sl.sum) :
    Selection.roulette_wheel_check sl = Except.ok () ↔
      1 - 1 / (2 * 10 ^ 10) ≤ sl.sum ∧ sl.sum < 1 + 1 / (2 * 10 ^ 10) := by
  have hok : Selection.roulette_wheel_check sl = Except.ok () ↔
      pyRound10 sl.sum = 1 := by
    unfold Selection.roulette_wheel_check
    by_cases hc : pyRound10 sl.sum = 1 <;> simp [hc]
  rw [hok]
  have h10 : pyRound10 sl.sum = 1 ↔
      pyRound (sl.sum * 10 ^ 10) = 10 ^ 10 := by
    unfold pyRound10
    rw [div_eq_one_iff_eq (by norm_num : ((10 : ℚ) ^ 10) ≠ 0)]
    constructor
    · intro h2
      exact_mod_cast h2
    · intro h2
      rw [h2]
      norm_num
  rw [h10, pyRound_eq_iff _ _ (mul_nonneg h (by norm_num))]
  push_cast
  constructor
  · rintro ⟨h1, h2⟩
    constructor <;> nlinarith
  · rintro ⟨h1, h2⟩
    constructor <;> nlinarith

/-- Witness for C5: the weight vector `[1]` sums to `1` and passes the
validation. -/
theorem roulette_wheel_tolerance_witness :
    (0 : ℚ) ≤ ([(1 : ℚ)]).sum ∧
    Selection.roulette_wheel_check [(1 : ℚ)] = Except.ok () :=
  ⟨by norm_num,
    (roulette_wheel_tolerance [(1 : ℚ)] (by norm_num)).mpr (by norm_num)⟩

/-- C5 counterexample: the single weight `1 - 9e-11` sums to within
`1e-10` of `1.0` — strictly closer than the claimed tolerance — yet the
roulette-wheel validation rejects it, because
`round(0.99999999991, 10) = 0.9999999999 ≠ 1.0`. -/
theorem roulette_tolerance_counterexample :
    |([(1 : ℚ) - 9 / 10 ^ 11]).sum - 1| < 1 / 10 ^ 10 ∧
    Selection.roulette_wheel_check [(1 : ℚ) - 9 / 10 ^ 11] =
      Except.error PyError.valueError := by
  constructor
  · norm_num [abs_lt]
  · have hr : pyRound (((1 : ℚ) - 9 / 10 ^ 11) * 10 ^ 10) = 10 ^ 10 - 1 :=
      (pyRound_eq_iff _ _ (by norm_num)).mpr (by push_cast; constructor <;> norm_num)
    unfold Selection.roulette_wheel_check pyRound10
    rw [show ([(1 : ℚ) - 9 / 10 ^ 11]).sum = (1 : ℚ) - 9 / 10 ^ 11 by simp]
    rw [hr]
    norm_num

/-- C9: whenever `cutoff_rank = int(round(trunc_rate * N))` equals the
population size `N ≥ 1` — as with the in-range truncation rate `1.0` —
`FitnessTruncationRanking.select()` evaluates
`1.0 / float(N - cutoff_rank)` and raises `ZeroDivisionError` instead of
yielding member ids. -/
theorem truncation_ranking_div_zero (st ft : Objective) (trunc_rate : ℚ)
    (sl : List ℚ) (hlen : 1 ≤ sl.length)
    (hcut : pyRound (trunc_rate * (sl.length : ℚ)) = (sl.length : ℤ)) :
    FitnessTruncationRanking.select_probs st ft trunc_rate sl =
      Except.error PyError.zeroDivision := by
  have hL : (pySortDesc (Selection.make_sort_list
      (Fitness.scale_list st ft sl))).length = sl.length := by
    rw [pySortDesc_length, make_sort_list_length, scale_list_length]
  simp only [FitnessTruncationRanking.select_probs, hL]
  rw [if_pos ⟨hcut.symm, hlen⟩]

/-- Witness for C9: a two-member MIN population with truncation rate
`1.0`, where `int(round(1.0 * 2)) = 2` equals the population size. -/
theorem truncation_ranking_div_zero_witness :
    1 ≤ ([(1 : ℚ), 2]).length ∧
    pyRound (1 * (([(1 : ℚ), 2]).length : ℚ)) = (([(1 : ℚ), 2]).length : ℤ) ∧
    FitnessTruncationRanking.select_probs .min .min 1 [1, 2] =
      Except.error PyError.zeroDivision :=
  ⟨by decide,
    (pyRound_eq_iff _ _ (by norm_num)).mpr (by push_cast; constructor <;> norm_num),
    truncation_ranking_div_zero .min .min 1 [1, 2] (by decide)
      ((pyRound_eq_iff _ _ (by norm_num)).mpr
        (by push_cast; constructor <;> norm_num))⟩
